import Mathlib

/-!
Verification of the Embedding Store and Identity Resolver of the
face-recognition service in src/index.js.

Numeric domain: the source computes Euclidean distances over floating-point
vectors and compares them with the acceptance threshold 0.6.  The embedding
works over exact rationals and replaces every distance comparison by the
equivalent comparison of squared distances: for nonnegative reals d and t,
d <= t holds iff d * d <= t * t, so a stored entry at Euclidean distance
exactly 0.6 from the query is exactly an entry whose squared distance equals
sqThreshold below.  This keeps every definition executable and every
comparison exact.

The nearest-neighbor scan itself (`faceapi.FaceMatcher(...).findBestMatch`)
is library code that is not part of src/; `scanBest` and `resolveSpec` are
modelled from the specification of the Identity Resolver (spec section 4.5),
while every function of src/index.js (validateInput, convertHeicToJpg,
saveToVectorStore, queryVectorStore and the two route handlers) is embedded
directly from the source.
-/

/-- An embedding: an ordered sequence of numbers (src stores the float array
returned by the descriptor model; here exact rationals). -/
abbrev Embedding := List ℚ

/-- One entry of the vector store, as pushed by saveToVectorStore
(src/index.js lines 201-209): a record with fields name and embeddings. -/
structure LabeledEmbedding where
  name : String
  embeddings : Embedding
deriving DecidableEq

/-- The in-memory vector store (src/index.js line 14): an ordered list of
labeled embeddings, appended at the end. -/
abbrev VectorStore := List LabeledEmbedding

/-- saveToVectorStore (src/index.js lines 201-209): pushes a new entry with
the given name and embeddings at the end of the store.  There is no
validation, no failure outcome and no mutation of existing entries. -/
def saveToVectorStore (store : VectorStore) (nm : String) (e : Embedding) :
    VectorStore :=
  store ++ [⟨nm, e⟩]

/-- Squared Euclidean distance of two vectors (pointwise squared differences,
summed).  The source compares (unsquared) Euclidean distances of
equal-length vectors; comparing squared distances is equivalent. -/
def dist2 (a b : Embedding) : ℚ :=
  (List.zipWith (fun x y => (x - y) * (x - y)) a b).sum

/-- The acceptance threshold of the resolver, hard-coded as 0.6 in
src/index.js line 224. -/
def matchThreshold : ℚ := 3 / 5

/-- The squared acceptance threshold: a Euclidean distance d satisfies
d <= matchThreshold iff the squared distance satisfies
dist2 <= sqThreshold. -/
def sqThreshold : ℚ := matchThreshold * matchThreshold

/-- Modelled from the spec: the nearest-neighbor scan that src/index.js
delegates to the external faceapi.FaceMatcher.findBestMatch (spec section
4.5): compute the distance from the query to every stored embedding in
order, keep the entry with minimum distance, and on an exact tie keep the
entry encountered first in snapshot order.  Returns the best entry together
with its squared distance, or none on an empty snapshot. -/
def scanBest (query : Embedding) : VectorStore → Option (LabeledEmbedding × ℚ)
  | [] => none
  | e :: rest =>
    match scanBest query rest with
    | none => some (e, dist2 query e.embeddings)
    | some (b, d) =>
      if d < dist2 query e.embeddings then some (b, d)
      else some (e, dist2 query e.embeddings)

/-- The MatchResult of the spec (section 3): either Identified with a label
and a distance (here the squared distance), or Unknown. -/
inductive MatchResult where
  | Identified (label : String) (d : ℚ)
  | Unknown
deriving DecidableEq

/-- Modelled from the spec: the Identity Resolver contract of spec section
4.5.  Empty store: Unknown (defined base case).  Otherwise take the entry at
minimum distance (first one on ties) and compare with the acceptance
threshold, inclusively: minimum distance <= threshold gives Identified with
that entry's label and distance, otherwise Unknown. -/
def resolveSpec (store : VectorStore) (query : Embedding) : MatchResult :=
  match scanBest query store with
  | none => MatchResult.Unknown
  | some (b, d) =>
    if d ≤ sqThreshold then MatchResult.Identified b.name d
    else MatchResult.Unknown

/-- queryVectorStore (src/index.js lines 211-229): on an empty store return
the literal string "unknown" immediately; otherwise build the matcher over
the current snapshot with threshold 0.6 and return the label of the best
match, which is the best entry's name when its distance is within the
threshold and the literal "unknown" otherwise.  The scan itself is the
spec-modelled scanBest above (FaceMatcher internals are not in src/). -/
def queryVectorStore (store : VectorStore) (query : Embedding) : String :=
  if store.isEmpty then "unknown"
  else
    match scanBest query store with
    | none => "unknown"
    | some (b, d) => if d ≤ sqThreshold then b.name else "unknown"

/-- The responses the two route handlers of src/index.js can produce.
Status codes and detail strings from the source are noted per constructor:
missingNameError is the 400 validation error for a missing name query
parameter (src lines 25-30); invalidImageError is the 400 validation error
for a body with no valid image (src lines 33-38 and 88-93); conversionError
is the 500 image conversion error carrying the error message (src lines
45-50 and 100-105); noFaceError is the 400 processing error for no detected
face (src lines 57-62 and 111-116); created is the 201 success of /add-face
carrying the saved name (src lines 68-72); okName is the 200 success of
/detect-and-recognize carrying the resolved name (src lines 122-126). -/
inductive Response where
  | missingNameError
  | invalidImageError
  | conversionError (details : String)
  | noFaceError
  | created (nm : String)
  | okName (nm : String)
deriving DecidableEq

/-- Whether a response is one of the two success responses. -/
def Response.isSuccess : Response → Bool
  | Response.created _ => true
  | Response.okName _ => true
  | _ => false

/-- The JS string method startsWith used by validateInput, over the
character sequences of the two strings. -/
def startsWithStr (s p : String) : Bool := List.isPrefixOf p.data s.data

/-- validateInput (src/index.js lines 137-155): an empty body is rejected;
otherwise the external sniffer (fileTypeFromBuffer, passed here as the
function sniff) is consulted, and only a mime type starting with image/jpeg,
image/png, image/heic or image/heif is accepted and returned. -/
def validateInput (sniff : List Nat → Option String) (buffer : List Nat) :
    Option String :=
  if buffer.isEmpty then none
  else
    match sniff buffer with
    | none => none
    | some mime =>
      if startsWithStr mime "image/jpeg" ∨ startsWithStr mime "image/png"
          ∨ startsWithStr mime "image/heic" ∨ startsWithStr mime "image/heif"
      then some mime
      else none

/-- convertHeicToJpg (src/index.js lines 167-179): call the external
transcoder (heicConvert, passed here as hconv) once; on success return its
output, on failure rethrow with the message prefixed by
"HEIC Conversion Failed: ".  No retry. -/
def convertHeicToJpg (hconv : List Nat → Except String (List Nat))
    (buffer : List Nat) : Except String (List Nat) :=
  match hconv buffer with
  | Except.ok out => Except.ok out
  | Except.error msg => Except.error ("HEIC Conversion Failed: " ++ msg)

/-- The /add-face handler (src/index.js lines 18-79).  External
collaborators are passed as functions: sniff (fileTypeFromBuffer), hconv
(heicConvert) and gemb (getEmbeddings, returning some embedding or none when
no face is detected).  nm is the name query parameter (none when absent; the
source check (!name) also treats the empty string as missing).  Returns the
response and the store after the request. -/
def addFace (sniff : List Nat → Option String)
    (hconv : List Nat → Except String (List Nat))
    (gemb : List Nat → Option Embedding)
    (store : VectorStore) (nm : Option String) (buffer : List Nat) :
    Response × VectorStore :=
  match nm with
  | none => (Response.missingNameError, store)
  | some n =>
    if n = "" then (Response.missingNameError, store)
    else
      match validateInput sniff buffer with
      | none => (Response.invalidImageError, store)
      | some imageType =>
        match (if imageType = "image/heic" ∨ imageType = "image/heif"
               then convertHeicToJpg hconv buffer
               else Except.ok buffer) with
        | Except.error msg => (Response.conversionError msg, store)
        | Except.ok processingBuffer =>
          match gemb processingBuffer with
          | none => (Response.noFaceError, store)
          | some emb => (Response.created n, saveToVectorStore store n emb)

/-- The /detect-and-recognize handler (src/index.js lines 81-133), with the
same collaborator parameters as addFace.  The store is only read (the
handler contains no store write); the returned store is the input store. -/
def detectAndRecognize (sniff : List Nat → Option String)
    (hconv : List Nat → Except String (List Nat))
    (gemb : List Nat → Option Embedding)
    (store : VectorStore) (buffer : List Nat) :
    Response × VectorStore :=
  match validateInput sniff buffer with
  | none => (Response.invalidImageError, store)
  | some imageType =>
    match (if imageType = "image/heic" ∨ imageType = "image/heif"
           then convertHeicToJpg hconv buffer
           else Except.ok buffer) with
    | Except.error msg => (Response.conversionError msg, store)
    | Except.ok processingBuffer =>
      match gemb processingBuffer with
      | none => (Response.noFaceError, store)
      | some emb => (Response.okName (queryVectorStore store emb), store)

/-- A scan over the empty snapshot is the only scan with no best entry. -/
theorem scanBest_eq_none (query : Embedding) :
    ∀ store : VectorStore, scanBest query store = none → store = []
  | [], _ => rfl
  | e :: rest, h => by
    exfalso
    rw [scanBest] at h
    cases hr : scanBest query rest with
    | none =>
      rw [hr] at h
      exact Option.noConfusion h
    | some p =>
      obtain ⟨b0, d0⟩ := p
      rw [hr] at h
      have h2 : (if d0 < dist2 query e.embeddings then some (b0, d0)
          else some (e, dist2 query e.embeddings)) = none := h
      by_cases hc : d0 < dist2 query e.embeddings
      · rw [if_pos hc] at h2; exact Option.noConfusion h2
      · rw [if_neg hc] at h2; exact Option.noConfusion h2

/-- Characterization of the spec-modelled scan: when it returns an entry b
with squared distance d, d is the squared distance of b to the query, the
snapshot splits around b, every entry strictly before b is at strictly
greater distance (first wins on ties), and every entry after b is at
distance at least d (b attains the minimum). -/
theorem scanBest_eq_some (query : Embedding) (store : VectorStore) :
    ∀ (b : LabeledEmbedding) (d : ℚ), scanBest query store = some (b, d) →
    d = dist2 query b.embeddings ∧
    ∃ pre post, store = pre ++ b :: post ∧
      (∀ e ∈ pre, d < dist2 query e.embeddings) ∧
      (∀ e ∈ post, d ≤ dist2 query e.embeddings) := by
  induction store with
  | nil => intro b d h; simp [scanBest] at h
  | cons e rest ih =>
    intro b d h
    rw [scanBest] at h
    cases hr : scanBest query rest with
    | none =>
      rw [hr] at h
      have hrest : rest = [] := scanBest_eq_none query rest hr
      obtain ⟨hb, hd⟩ : e = b ∧ dist2 query e.embeddings = d := by
        simpa using h
      subst hb hrest
      exact ⟨hd.symm, [], [], rfl, by simp, by simp⟩
    | some p =>
      obtain ⟨b0, d0⟩ := p
      rw [hr] at h
      obtain ⟨hd0, pre0, post0, hsplit, hpre0, hpost0⟩ :=
        ih b0 d0 hr
      have h2 : (if d0 < dist2 query e.embeddings then some (b0, d0)
          else some (e, dist2 query e.embeddings)) = some (b, d) := h
      by_cases hc : d0 < dist2 query e.embeddings
      · rw [if_pos hc] at h2
        obtain ⟨hb, hd⟩ : b0 = b ∧ d0 = d := by simpa using h2
        subst hb hd
        refine ⟨hd0, e :: pre0, post0, by simp [hsplit], ?_, hpost0⟩
        intro x hx
        rcases List.mem_cons.mp hx with hx | hx
        · rw [hx]; exact hc
        · exact hpre0 x hx
      · rw [if_neg hc] at h2
        obtain ⟨hb, hd⟩ : e = b ∧ dist2 query e.embeddings = d := by
          simpa using h2
        subst hb
        have hled : d ≤ d0 := hd ▸ le_of_not_lt hc
        refine ⟨hd.symm, [], rest, rfl, by simp, ?_⟩
        intro x hx
        rw [hsplit] at hx
        rcases List.mem_append.mp hx with hx | hx
        · exact le_of_lt (lt_of_le_of_lt hled (hpre0 x hx))
        · rcases List.mem_cons.mp hx with hx | hx
          · rw [hx]; exact hled.trans (le_of_eq hd0)
          · exact hled.trans (hpost0 x hx)

/-- The scanned best entry attains the minimum squared distance over the
whole snapshot. -/
theorem scanBest_min (query : Embedding) (store : VectorStore)
    (b : LabeledEmbedding) (d : ℚ) (h : scanBest query store = some (b, d)) :
    b ∈ store ∧ ∀ e ∈ store, d ≤ dist2 query e.embeddings := by
  obtain ⟨hd, pre, post, hsplit, hpre, hpost⟩ :=
    scanBest_eq_some query store b d h
  subst hsplit
  refine ⟨by simp, ?_⟩
  intro x hx
  rcases List.mem_append.mp hx with hx | hx
  · exact le_of_lt (hpre x hx)
  · rcases List.mem_cons.mp hx with hx | hx
    · rw [hx, ← hd]
    · exact hpost x hx

/-- queryVectorStore in terms of the scan: when the scan finds a best entry,
the returned label is that entry's name when its squared distance is within
the squared threshold, and the literal "unknown" otherwise. -/
theorem queryVectorStore_of_scanBest (query : Embedding) (store : VectorStore)
    (b : LabeledEmbedding) (d : ℚ) (h : scanBest query store = some (b, d)) :
    queryVectorStore store query =
      (if d ≤ sqThreshold then b.name else "unknown") := by
  cases store with
  | nil => simp [scanBest] at h
  | cons e rest =>
    rw [queryVectorStore]
    simp only [List.isEmpty_cons, if_false, Bool.false_eq_true]
    rw [h]

/-- C1: for every non-empty store and query, when the minimum distance is
within the acceptance threshold, queryVectorStore returns the label of the
entry at minimum Euclidean distance over all entries of the snapshot (here
stated with the squared distance d of the scanned best entry: d is the
squared distance of that entry, and no entry of the store is closer). -/
theorem claim_C1_nearest_wins (store : VectorStore) (query : Embedding)
    (b : LabeledEmbedding) (d : ℚ)
    (_hne : store ≠ [])
    (hscan : scanBest query store = some (b, d))
    (hthr : d ≤ sqThreshold) :
    queryVectorStore store query = b.name ∧
    b ∈ store ∧ d = dist2 query b.embeddings ∧
    ∀ e ∈ store, d ≤ dist2 query e.embeddings := by
  obtain ⟨hmem, hmin⟩ := scanBest_min query store b d hscan
  obtain ⟨hd, -⟩ := scanBest_eq_some query store b d hscan
  rw [queryVectorStore_of_scanBest query store b d hscan, if_pos hthr]
  exact ⟨rfl, hmem, hd, hmin⟩

/-- C1 witness: two entries at Euclidean distances 0.7 and 0.3 from the
query (squared distances 49/100 and 9/100); the label of the 0.3 entry is
returned. -/
theorem claim_C1_nearest_wins_witness :
    ([⟨"far", [7/10]⟩, ⟨"near", [3/10]⟩] : VectorStore) ≠ [] ∧
    scanBest [0] [⟨"far", [7/10]⟩, ⟨"near", [3/10]⟩] =
      some (⟨"near", [3/10]⟩, 9/100) ∧
    (9/100 : ℚ) ≤ sqThreshold ∧
    (queryVectorStore [⟨"far", [7/10]⟩, ⟨"near", [3/10]⟩] [0] = "near" ∧
      (⟨"near", [3/10]⟩ : LabeledEmbedding) ∈
        ([⟨"far", [7/10]⟩, ⟨"near", [3/10]⟩] : VectorStore) ∧
      (9/100 : ℚ) = dist2 [0] [3/10] ∧
      ∀ e ∈ ([⟨"far", [7/10]⟩, ⟨"near", [3/10]⟩] : VectorStore),
        (9/100 : ℚ) ≤ dist2 [0] e.embeddings) := by
  have h1 : ([⟨"far", [7/10]⟩, ⟨"near", [3/10]⟩] : VectorStore) ≠ [] := by
    simp
  have h2 : scanBest [0] [⟨"far", [7/10]⟩, ⟨"near", [3/10]⟩] =
      some (⟨"near", [3/10]⟩, 9/100) := by
    norm_num [scanBest, dist2]
  have h3 : (9/100 : ℚ) ≤ sqThreshold := by
    norm_num [sqThreshold, matchThreshold]
  exact ⟨h1, h2, h3, claim_C1_nearest_wins _ _ _ _ h1 h2 h3⟩

/-- C2: the acceptance threshold is inclusive.  When the scanned minimum
squared distance equals the squared threshold (that is, the Euclidean
distance is exactly 0.6), the resolver identifies the best entry and
queryVectorStore returns its label; when it is strictly greater, both
report unknown. -/
theorem claim_C2_threshold_inclusive (store : VectorStore) (query : Embedding)
    (b : LabeledEmbedding) (d : ℚ)
    (hscan : scanBest query store = some (b, d)) :
    (d = sqThreshold →
      resolveSpec store query = MatchResult.Identified b.name d ∧
      queryVectorStore store query = b.name) ∧
    (sqThreshold < d →
      resolveSpec store query = MatchResult.Unknown ∧
      queryVectorStore store query = "unknown") := by
  have hq := queryVectorStore_of_scanBest query store b d hscan
  constructor
  · intro heq
    have hle : d ≤ sqThreshold := le_of_eq heq
    constructor
    · show (match scanBest query store with
        | none => MatchResult.Unknown
        | some (b, d) =>
          if d ≤ sqThreshold then MatchResult.Identified b.name d
          else MatchResult.Unknown) = MatchResult.Identified b.name d
      rw [hscan]
      exact if_pos hle
    · rw [hq]
      exact if_pos hle
  · intro hlt
    have hnle : ¬ d ≤ sqThreshold := not_le.mpr hlt
    constructor
    · show (match scanBest query store with
        | none => MatchResult.Unknown
        | some (b, d) =>
          if d ≤ sqThreshold then MatchResult.Identified b.name d
          else MatchResult.Unknown) = MatchResult.Unknown
      rw [hscan]
      exact if_neg hnle
    · rw [hq]
      exact if_neg hnle

/-- C2 witness: a single entry at Euclidean distance exactly 0.6 from the
query (squared distance 9/25 = sqThreshold) is identified, inclusively. -/
theorem claim_C2_threshold_inclusive_witness :
    scanBest [0] [⟨"e", [3/5]⟩] = some (⟨"e", [3/5]⟩, 9/25) ∧
    (9/25 : ℚ) = sqThreshold ∧
    resolveSpec [⟨"e", [3/5]⟩] [0] = MatchResult.Identified "e" (9/25) ∧
    queryVectorStore [⟨"e", [3/5]⟩] [0] = "e" := by
  have hscan : scanBest [0] [⟨"e", [3/5]⟩] = some (⟨"e", [3/5]⟩, 9/25) := by
    norm_num [scanBest, dist2]
  have hthr : (9/25 : ℚ) = sqThreshold := by
    norm_num [sqThreshold, matchThreshold]
  obtain ⟨h1, h2⟩ := (claim_C2_threshold_inclusive _ _ _ _ hscan).1 hthr
  exact ⟨hscan, hthr, h1, h2⟩

/-- C3: first-wins tie-break.  The scanned best entry b splits the snapshot
as pre ++ b :: post where every entry before b is at strictly greater
squared distance (so on an exact tie for the minimum, the entry enrolled
first is selected) and every entry after b is at distance at least d; when
d is within the threshold, queryVectorStore returns the name of b.  The
choice is a function of the snapshot and the query alone, hence
deterministic and stable. -/
theorem claim_C3_tie_first_wins (store : VectorStore) (query : Embedding)
    (b : LabeledEmbedding) (d : ℚ)
    (hscan : scanBest query store = some (b, d))
    (hthr : d ≤ sqThreshold) :
    queryVectorStore store query = b.name ∧
    d = dist2 query b.embeddings ∧
    ∃ pre post, store = pre ++ b :: post ∧
      (∀ e ∈ pre, d < dist2 query e.embeddings) ∧
      (∀ e ∈ post, d ≤ dist2 query e.embeddings) := by
  obtain ⟨hd, pre, post, hsplit, hpre, hpost⟩ :=
    scanBest_eq_some query store b d hscan
  rw [queryVectorStore_of_scanBest query store b d hscan, if_pos hthr]
  exact ⟨rfl, hd, pre, post, hsplit, hpre, hpost⟩

/-- C3 witness: two entries both at squared distance 1/100 from the query
(an exact tie); the entry enrolled first is returned. -/
theorem claim_C3_tie_first_wins_witness :
    scanBest [0] [⟨"first", [1/10]⟩, ⟨"second", [-1/10]⟩] =
      some (⟨"first", [1/10]⟩, 1/100) ∧
    dist2 [0] [1/10] = dist2 [0] [-1/10] ∧
    (1/100 : ℚ) ≤ sqThreshold ∧
    (queryVectorStore [⟨"first", [1/10]⟩, ⟨"second", [-1/10]⟩] [0] = "first" ∧
      (1/100 : ℚ) = dist2 [0] [1/10] ∧
      ∃ pre post,
        ([⟨"first", [1/10]⟩, ⟨"second", [-1/10]⟩] : VectorStore) =
          pre ++ ⟨"first", [1/10]⟩ :: post ∧
        (∀ e ∈ pre, (1/100 : ℚ) < dist2 [0] e.embeddings) ∧
        (∀ e ∈ post, (1/100 : ℚ) ≤ dist2 [0] e.embeddings)) := by
  have hscan : scanBest [0] [⟨"first", [1/10]⟩, ⟨"second", [-1/10]⟩] =
      some (⟨"first", [1/10]⟩, 1/100) := by
    norm_num [scanBest, dist2]
  have htie : dist2 [0] [1/10] = dist2 [0] [-1/10] := by
    norm_num [dist2]
  have hthr : (1/100 : ℚ) ≤ sqThreshold := by
    norm_num [sqThreshold, matchThreshold]
  exact ⟨hscan, htie, hthr, claim_C3_tie_first_wins _ _ _ _ hscan hthr⟩

/-- C4: resolving against the empty store returns the literal "unknown"
immediately (and the spec-level resolver returns Unknown), as a defined
base case of a total function, never an error. -/
theorem claim_C4_empty_store_unknown (query : Embedding) :
    queryVectorStore [] query = "unknown" ∧
    resolveSpec [] query = MatchResult.Unknown :=
  ⟨rfl, rfl⟩

/-- C5: enroll never rejects: for every label and embedding, the store
after saveToVectorStore is exactly the old store with the one new entry
appended at the end; the first entries are unchanged, and enrolling the
same pair again appends a duplicate (duplicates allowed by design). -/
theorem claim_C5_enroll_appends (store : VectorStore) (nm : String)
    (e : Embedding) :
    saveToVectorStore store nm e = store ++ [⟨nm, e⟩] ∧
    (saveToVectorStore store nm e).length = store.length + 1 ∧
    (saveToVectorStore store nm e).take store.length = store ∧
    saveToVectorStore (saveToVectorStore store nm e) nm e =
      store ++ [⟨nm, e⟩, ⟨nm, e⟩] := by
  refine ⟨rfl, by simp [saveToVectorStore], ?_, by simp [saveToVectorStore]⟩
  show (store ++ [(⟨nm, e⟩ : LabeledEmbedding)]).take store.length = store
  exact List.take_left store [(⟨nm, e⟩ : LabeledEmbedding)]

/-- An empty body, a body in which the sniffer finds no signature at all,
and a body the sniffer recognizes with a mime type that is not one of the
four accepted image kinds, are all classified by validateInput as not an
image. -/
theorem validateInput_eq_none (sniff : List Nat → Option String)
    (buffer : List Nat)
    (hbad : buffer = [] ∨ sniff buffer = none ∨
      ∃ m, sniff buffer = some m ∧
        startsWithStr m "image/jpeg" = false ∧
        startsWithStr m "image/png" = false ∧
        startsWithStr m "image/heic" = false ∧
        startsWithStr m "image/heif" = false) :
    validateInput sniff buffer = none := by
  rcases hbad with h | h | ⟨m, hm, h1, h2, h3, h4⟩
  · rw [h]; rfl
  · rw [validateInput]
    split
    · rfl
    · rw [h]
  · rw [validateInput]
    split
    · rfl
    · rw [hm]
      have hcond : ¬ (startsWithStr m "image/jpeg" = true
          ∨ startsWithStr m "image/png" = true
          ∨ startsWithStr m "image/heic" = true
          ∨ startsWithStr m "image/heif" = true) := by
        simp [h1, h2, h3, h4]
      exact if_neg hcond

/-- C6: for every empty or non-image body — empty, no signature found by
the sniffer, or a sniffed mime type outside the four accepted image kinds
(for instance application/pdf) — validateInput reports not-an-image, the
Resolve handler answers with the image validation error and the Enroll
handler with the missing-name or image validation error, the store is
unchanged, and neither handler invokes the transcoder or the descriptor
extractor (the outcome is the same for every transcoder hconv2 and
extractor gemb2); no branch is an exception. -/
theorem claim_C6_invalid_input_rejected
    (sniff : List Nat → Option String)
    (hconv hconv2 : List Nat → Except String (List Nat))
    (gemb gemb2 : List Nat → Option Embedding)
    (store : VectorStore) (nm : Option String) (buffer : List Nat)
    (hbad : buffer = [] ∨ sniff buffer = none ∨
      ∃ m, sniff buffer = some m ∧
        startsWithStr m "image/jpeg" = false ∧
        startsWithStr m "image/png" = false ∧
        startsWithStr m "image/heic" = false ∧
        startsWithStr m "image/heif" = false) :
    validateInput sniff buffer = none ∧
    detectAndRecognize sniff hconv gemb store buffer =
      (Response.invalidImageError, store) ∧
    (addFace sniff hconv gemb store nm buffer).2 = store ∧
    ((addFace sniff hconv gemb store nm buffer).1 = Response.missingNameError
      ∨ (addFace sniff hconv gemb store nm buffer).1 =
        Response.invalidImageError) ∧
    addFace sniff hconv gemb store nm buffer =
      addFace sniff hconv2 gemb2 store nm buffer ∧
    detectAndRecognize sniff hconv gemb store buffer =
      detectAndRecognize sniff hconv2 gemb2 store buffer := by
  have hv := validateInput_eq_none sniff buffer hbad
  have hdet : ∀ (hc : List Nat → Except String (List Nat))
      (ge : List Nat → Option Embedding),
      detectAndRecognize sniff hc ge store buffer =
        (Response.invalidImageError, store) := by
    intro hc ge
    rw [detectAndRecognize, hv]
  have hadd : ∀ (hc : List Nat → Except String (List Nat))
      (ge : List Nat → Option Embedding),
      addFace sniff hc ge store nm buffer =
        (match nm with
          | none => (Response.missingNameError, store)
          | some n =>
            if n = "" then (Response.missingNameError, store)
            else (Response.invalidImageError, store)) := by
    intro hc ge
    cases nm with
    | none => rfl
    | some n =>
      by_cases hn : n = ""
      · simp [addFace, hn]
      · simp [addFace, hn, hv]
  refine ⟨hv, hdet hconv gemb, ?_, ?_,
    by rw [hadd hconv gemb, hadd hconv2 gemb2],
    by rw [hdet hconv gemb, hdet hconv2 gemb2]⟩
  · rw [hadd hconv gemb]
    cases nm with
    | none => rfl
    | some n => by_cases hn : n = "" <;> simp [hn]
  · rw [hadd hconv gemb]
    cases nm with
    | none => exact Or.inl rfl
    | some n =>
      by_cases hn : n = ""
      · exact Or.inl (by simp [hn])
      · exact Or.inr (by simp [hn])

/-- C6 witness: a nonempty body the sniffer recognizes as application/pdf,
a non-image kind; both handlers return the image validation error, the
store is untouched, and the outcome does not depend on the transcoder or
the extractor. -/
theorem claim_C6_invalid_input_rejected_witness :
    (([7] : List Nat) = [] ∨
      (fun _ : List Nat => some "application/pdf") [7] = none ∨
      ∃ m, (fun _ : List Nat => some "application/pdf") [7] = some m ∧
        startsWithStr m "image/jpeg" = false ∧
        startsWithStr m "image/png" = false ∧
        startsWithStr m "image/heic" = false ∧
        startsWithStr m "image/heif" = false) ∧
    (validateInput (fun _ => some "application/pdf") [7] = none ∧
      detectAndRecognize (fun _ => some "application/pdf")
          (fun _ => Except.ok []) (fun _ => some [0]) [⟨"a", [0]⟩] [7] =
        (Response.invalidImageError, [⟨"a", [0]⟩]) ∧
      (addFace (fun _ => some "application/pdf") (fun _ => Except.ok [])
          (fun _ => some [0]) [⟨"a", [0]⟩] (some "bob") [7]).2 =
        [⟨"a", [0]⟩] ∧
      ((addFace (fun _ => some "application/pdf") (fun _ => Except.ok [])
          (fun _ => some [0]) [⟨"a", [0]⟩] (some "bob") [7]).1 =
            Response.missingNameError
        ∨ (addFace (fun _ => some "application/pdf") (fun _ => Except.ok [])
          (fun _ => some [0]) [⟨"a", [0]⟩] (some "bob") [7]).1 =
            Response.invalidImageError) ∧
      addFace (fun _ => some "application/pdf") (fun _ => Except.ok [])
          (fun _ => some [0]) [⟨"a", [0]⟩] (some "bob") [7] =
        addFace (fun _ => some "application/pdf") (fun _ => Except.error "x")
          (fun _ => none) [⟨"a", [0]⟩] (some "bob") [7] ∧
      detectAndRecognize (fun _ => some "application/pdf")
          (fun _ => Except.ok []) (fun _ => some [0]) [⟨"a", [0]⟩] [7] =
        detectAndRecognize (fun _ => some "application/pdf")
          (fun _ => Except.error "x") (fun _ => none) [⟨"a", [0]⟩] [7]) :=
  ⟨Or.inr (Or.inr ⟨"application/pdf", rfl, by decide, by decide, by decide,
      by decide⟩),
    claim_C6_invalid_input_rejected (fun _ => some "application/pdf")
      (fun _ => Except.ok []) (fun _ => Except.error "x")
      (fun _ => some [0]) (fun _ => none) [⟨"a", [0]⟩] (some "bob") [7]
      (Or.inr (Or.inr ⟨"application/pdf", rfl, by decide, by decide,
        by decide, by decide⟩))⟩

/-- A nonempty body sniffed as image/heic or image/heif passes
validateInput and the sniffed mime type is returned unchanged. -/
theorem validateInput_heic (sniff : List Nat → Option String)
    (buffer : List Nat) (hnz : buffer ≠ [])
    (hk : sniff buffer = some "image/heic" ∨
      sniff buffer = some "image/heif") :
    validateInput sniff buffer = sniff buffer := by
  have hne : buffer.isEmpty = false := by
    cases buffer with
    | nil => exact absurd rfl hnz
    | cons a l => rfl
  have hsw1 : startsWithStr "image/heic" "image/heic" = true := by decide
  have hsw2 : startsWithStr "image/heif" "image/heif" = true := by decide
  rcases hk with hk | hk <;> simp [validateInput, hne, hk, hsw1, hsw2]

/-- C7: when the sniffer reports HEIC or HEIF and the transcoder fails,
both handlers surface the conversion failure, with the transcoder reason
prefixed by the convertHeicToJpg wrapper, the store is unchanged, and the
pipeline aborts before the descriptor extractor (the outcome is identical
for every extractor gemb2); the single transcoder answer fully determines
the outcome, with no retry. -/
theorem claim_C7_conversion_failure_aborts
    (sniff : List Nat → Option String)
    (hconv : List Nat → Except String (List Nat))
    (gemb gemb2 : List Nat → Option Embedding)
    (store : VectorStore) (n : String) (buffer : List Nat) (msg : String)
    (hnz : buffer ≠ []) (hn : ¬ n = "")
    (hk : sniff buffer = some "image/heic" ∨
      sniff buffer = some "image/heif")
    (hf : hconv buffer = Except.error msg) :
    detectAndRecognize sniff hconv gemb store buffer =
      (Response.conversionError ("HEIC Conversion Failed: " ++ msg), store) ∧
    addFace sniff hconv gemb store (some n) buffer =
      (Response.conversionError ("HEIC Conversion Failed: " ++ msg), store) ∧
    detectAndRecognize sniff hconv gemb store buffer =
      detectAndRecognize sniff hconv gemb2 store buffer ∧
    addFace sniff hconv gemb store (some n) buffer =
      addFace sniff hconv gemb2 store (some n) buffer := by
  have hv := validateInput_heic sniff buffer hnz hk
  have hcv : convertHeicToJpg hconv buffer =
      Except.error ("HEIC Conversion Failed: " ++ msg) := by
    rw [convertHeicToJpg, hf]
  have hdet : ∀ ge : List Nat → Option Embedding,
      detectAndRecognize sniff hconv ge store buffer =
        (Response.conversionError ("HEIC Conversion Failed: " ++ msg),
          store) := by
    intro ge
    rcases hk with hk | hk <;> simp [detectAndRecognize, hv, hk, hcv]
  have hadd : ∀ ge : List Nat → Option Embedding,
      addFace sniff hconv ge store (some n) buffer =
        (Response.conversionError ("HEIC Conversion Failed: " ++ msg),
          store) := by
    intro ge
    rcases hk with hk | hk <;> simp [addFace, hn, hv, hk, hcv]
  exact ⟨hdet gemb, hadd gemb, by rw [hdet gemb, hdet gemb2],
    by rw [hadd gemb, hadd gemb2]⟩

/-- C7 witness: a nonempty body sniffed as HEIC whose conversion fails with
reason bad; both handlers surface the conversion error, the store stays
empty, and the outcome does not depend on the extractor. -/
theorem claim_C7_conversion_failure_aborts_witness :
    ([1] : List Nat) ≠ [] ∧ ¬ "a" = "" ∧
    ((fun _ : List Nat => some "image/heic") [1] = some "image/heic" ∨
      (fun _ : List Nat => some "image/heic") [1] = some "image/heif") ∧
    (fun _ : List Nat => (Except.error "bad" : Except String (List Nat))) [1]
      = Except.error "bad" ∧
    (detectAndRecognize (fun _ => some "image/heic")
        (fun _ => Except.error "bad") (fun _ => some [0]) [] [1] =
      (Response.conversionError ("HEIC Conversion Failed: " ++ "bad"), []) ∧
    addFace (fun _ => some "image/heic") (fun _ => Except.error "bad")
        (fun _ => some [0]) [] (some "a") [1] =
      (Response.conversionError ("HEIC Conversion Failed: " ++ "bad"), []) ∧
    detectAndRecognize (fun _ => some "image/heic")
        (fun _ => Except.error "bad") (fun _ => some [0]) [] [1] =
      detectAndRecognize (fun _ => some "image/heic")
        (fun _ => Except.error "bad") (fun _ => none) [] [1] ∧
    addFace (fun _ => some "image/heic") (fun _ => Except.error "bad")
        (fun _ => some [0]) [] (some "a") [1] =
      addFace (fun _ => some "image/heic") (fun _ => Except.error "bad")
        (fun _ => none) [] (some "a") [1]) := by
  refine ⟨by simp, by simp, Or.inl rfl, rfl, ?_⟩
  exact claim_C7_conversion_failure_aborts (fun _ => some "image/heic")
    (fun _ => Except.error "bad") (fun _ => some [0]) (fun _ => none)
    [] "a" [1] "bad" (by simp) (by simp) (Or.inl rfl) rfl

/-- The Resolve handler never changes the store: every branch of
detectAndRecognize returns the input store. -/
theorem detectAndRecognize_snd (sniff : List Nat → Option String)
    (hconv : List Nat → Except String (List Nat))
    (gemb : List Nat → Option Embedding)
    (store : VectorStore) (buffer : List Nat) :
    (detectAndRecognize sniff hconv gemb store buffer).2 = store := by
  unfold detectAndRecognize
  split
  · rfl
  · split
    · rfl
    · split <;> rfl

/-- The Enroll handler either leaves the store unchanged or succeeds with
exactly the store write of saveToVectorStore. -/
theorem addFace_cases (sniff : List Nat → Option String)
    (hconv : List Nat → Except String (List Nat))
    (gemb : List Nat → Option Embedding)
    (store : VectorStore) (nm : Option String) (buffer : List Nat) :
    (addFace sniff hconv gemb store nm buffer).2 = store ∨
    ∃ n emb, addFace sniff hconv gemb store nm buffer =
      (Response.created n, saveToVectorStore store n emb) := by
  unfold addFace
  split
  · exact Or.inl rfl
  · split
    · exact Or.inl rfl
    · split
      · exact Or.inl rfl
      · split
        · exact Or.inl rfl
        · split
          · exact Or.inl rfl
          · exact Or.inr ⟨_, _, rfl⟩

/-- C9: failure atomicity of Enroll, and read-only Resolve.  Whenever the
Enroll handler terminates in any non-success response (missing name,
invalid image, conversion failure, no face detected), the store after the
request equals the store before it; and the Resolve handler never modifies
the store at all. -/
theorem claim_C9_failure_atomicity (sniff : List Nat → Option String)
    (hconv : List Nat → Except String (List Nat))
    (gemb : List Nat → Option Embedding)
    (store : VectorStore) (nm : Option String) (buffer : List Nat)
    (hfail : (addFace sniff hconv gemb store nm buffer).1.isSuccess
      = false) :
    (addFace sniff hconv gemb store nm buffer).2 = store ∧
    (detectAndRecognize sniff hconv gemb store buffer).2 = store := by
  refine ⟨?_, detectAndRecognize_snd sniff hconv gemb store buffer⟩
  rcases addFace_cases sniff hconv gemb store nm buffer with h | ⟨n, emb, h⟩
  · exact h
  · rw [h] at hfail
    exact Bool.noConfusion hfail

/-- C9 witness: an Enroll request failing on a missing name leaves a
one-entry store unchanged, and the Resolve handler leaves it unchanged. -/
theorem claim_C9_failure_atomicity_witness :
    (addFace (fun _ => some "image/jpeg") (fun _ => Except.ok [])
      (fun _ => some [0]) [⟨"a", [0]⟩] none [1]).1.isSuccess = false ∧
    ((addFace (fun _ => some "image/jpeg") (fun _ => Except.ok [])
        (fun _ => some [0]) [⟨"a", [0]⟩] none [1]).2 = [⟨"a", [0]⟩] ∧
      (detectAndRecognize (fun _ => some "image/jpeg")
        (fun _ => Except.ok []) (fun _ => some [0]) [⟨"a", [0]⟩] [1]).2 =
        [⟨"a", [0]⟩]) :=
  ⟨rfl, claim_C9_failure_atomicity (fun _ => some "image/jpeg")
    (fun _ => Except.ok []) (fun _ => some [0]) [⟨"a", [0]⟩] none [1] rfl⟩

/-- C8 counterexample: ingestion performs no dimensionality validation.
Embeddings of length 1 and of length 2 are both appended unchanged by
saveToVectorStore, and since the two lengths differ, at least one of them
differs from any fixed dimensionality constant yet is stored rather than
rejected; the function has no failure outcome at all. -/
theorem claim_C8_counterexample :
    saveToVectorStore [] "a" [0] = [⟨"a", [0]⟩] ∧
    saveToVectorStore [] "a" [0, 0] = [⟨"a", [0, 0]⟩] ∧
    ([(0 : ℚ)] : Embedding).length ≠ ([0, 0] : Embedding).length :=
  ⟨rfl, rfl, by decide⟩

/-- C8 amended: no dimensionality validation is performed at ingestion:
saveToVectorStore appends the embedding unchanged whatever its length, and
no rejection path exists; fixed dimensionality is only an assumption about
the external descriptor model. -/
theorem claim_C8_amended_no_validation (store : VectorStore) (nm : String)
    (e : Embedding) :
    saveToVectorStore store nm e = store ++ [⟨nm, e⟩] := rfl

/-- C10: the Resolve success output conflates no-match with the literal
label.  Enroll accepts the string unknown as a label, and the Resolve
response carries the same literal string unknown both when nothing matches
(empty store: spec-level result Unknown) and when the best match is an
entry enrolled under the label unknown at distance 0 (spec-level result
Identified), so two stores with different match status produce identical
Resolve responses. -/
theorem claim_C10_unknown_label_conflation :
    addFace (fun _ => some "image/jpeg") (fun _ => Except.ok [])
        (fun _ => some [0]) [] (some "unknown") [1] =
      (Response.created "unknown", [⟨"unknown", [0]⟩]) ∧
    queryVectorStore [] [0] = "unknown" ∧
    queryVectorStore [⟨"unknown", [0]⟩] [0] = "unknown" ∧
    resolveSpec [] [0] = MatchResult.Unknown ∧
    resolveSpec [⟨"unknown", [0]⟩] [0] =
      MatchResult.Identified "unknown" 0 ∧
    detectAndRecognize (fun _ => some "image/jpeg") (fun _ => Except.ok [])
        (fun _ => some [0]) [] [1] = (Response.okName "unknown", []) ∧
    detectAndRecognize (fun _ => some "image/jpeg") (fun _ => Except.ok [])
        (fun _ => some [0]) [⟨"unknown", [0]⟩] [1] =
      (Response.okName "unknown", [⟨"unknown", [0]⟩]) := by
  have hq0 : queryVectorStore [] ([0] : Embedding) = "unknown" := rfl
  have hscan : scanBest [0] [⟨"unknown", [0]⟩] =
      some (⟨"unknown", [0]⟩, 0) := by
    norm_num [scanBest, dist2]
  have hthr : (0 : ℚ) ≤ sqThreshold := by
    norm_num [sqThreshold, matchThreshold]
  have hq1 : queryVectorStore [⟨"unknown", [0]⟩] [0] = "unknown" := by
    rw [queryVectorStore_of_scanBest _ _ _ _ hscan, if_pos hthr]
  have hr1 : resolveSpec [⟨"unknown", [0]⟩] [0] =
      MatchResult.Identified "unknown" 0 := by
    show (match scanBest [0] [⟨"unknown", [0]⟩] with
      | none => MatchResult.Unknown
      | some (b, d) =>
        if d ≤ sqThreshold then MatchResult.Identified b.name d
        else MatchResult.Unknown) = MatchResult.Identified "unknown" 0
    rw [hscan]
    exact if_pos hthr
  have hsw : startsWithStr "image/jpeg" "image/jpeg" = true := by decide
  have ha : addFace (fun _ => some "image/jpeg") (fun _ => Except.ok [])
      (fun _ => some [0]) [] (some "unknown") [1] =
      (Response.created "unknown", [⟨"unknown", [0]⟩]) := by
    simp [addFace, validateInput, hsw, saveToVectorStore]
  have hd0 : detectAndRecognize (fun _ => some "image/jpeg")
      (fun _ => Except.ok []) (fun _ => some [0]) [] [1] =
      (Response.okName "unknown", []) := by
    simp [detectAndRecognize, validateInput, hsw, hq0]
  have hd1 : detectAndRecognize (fun _ => some "image/jpeg")
      (fun _ => Except.ok []) (fun _ => some [0]) [⟨"unknown", [0]⟩] [1] =
      (Response.okName "unknown", [⟨"unknown", [0]⟩]) := by
    simp [detectAndRecognize, validateInput, hsw, hq1]
  exact ⟨ha, hq0, hq1, rfl, hr1, hd0, hd1⟩
